import Mathlib

/-
Verification of the container-cost-calculator core against its specification.

Shallow embedding of the three source files:
  app.py      : the landed-cost allocator (calculate_landed_costs and its inputs);
  matcher.py  : the product-matching cascade (ProductMatcher.match and helpers);
  parsers.py  : the document parsers (GenericParser.parse, merge_ci_pl, clean_code).

Conventions of the embedding:
  - Python floats are modelled as exact rationals; the presentation-layer
    round(x, 4) and round(x, 2) calls of app.py are not modelled, so cost rows
    carry the pre-rounding values that the specification describes as exact.
  - Python dicts used as records are modelled as structures whose possibly
    absent keys are Option fields; dict.get with a default becomes Option.getD.
  - Python dict objects used as indices keep insertion order and overwrite on
    duplicate keys; they are modelled as association lists with exactly that
    insert-overwrite behaviour.
  - Strings are ASCII-faithful: upper and lower case conversion is done by
    explicit character arithmetic matching Python str.upper and str.lower on
    ASCII data.
  - Fallible code paths return Except; a raised exception is Except.error.
-/

set_option maxRecDepth 4000
set_option autoImplicit false

/-! ## Python string primitives -/

/-- Whitespace characters removed by Python str.strip(). -/
def pyIsSpace (c : Char) : Bool :=
  c = ' ' ∨ c = '\t' ∨ c = '\n' ∨ c = '\r' ∨ c = '\x0b' ∨ c = '\x0c'

/-- Drops whitespace from both ends, as Python str.strip(). -/
def pyStripL (l : List Char) : List Char :=
  ((l.dropWhile pyIsSpace).reverse.dropWhile pyIsSpace).reverse

/-- Python str.strip() on a string. -/
def pyStrip (s : String) : String :=
  ⟨pyStripL s.data⟩

/-- ASCII lower-casing of one character, as Python str.lower() on ASCII. -/
def pyLowerChar (c : Char) : Char :=
  if 'A' ≤ c ∧ c ≤ 'Z' then Char.ofNat (c.toNat + 32) else c

/-- ASCII upper-casing of one character, as Python str.upper() on ASCII. -/
def pyUpperChar (c : Char) : Char :=
  if 'a' ≤ c ∧ c ≤ 'z' then Char.ofNat (c.toNat - 32) else c

/-- Python str.lower() on a string (ASCII data). -/
def pyLower (s : String) : String :=
  ⟨s.data.map pyLowerChar⟩

/-- Python str.upper() on a string (ASCII data). -/
def pyUpper (s : String) : String :=
  ⟨s.data.map pyUpperChar⟩

/-- Containment test for character lists: true when needle occurs as a
contiguous sublist of hay.  Models the Python expression needle in hay. -/
def containsSub (hay needle : List Char) : Bool :=
  needle.isPrefixOf hay ||
    match hay with
    | [] => false
    | _ :: t => containsSub t needle

/-- Python substring operator needle in hay on strings. -/
def strContains (hay needle : String) : Bool :=
  containsSub hay.data needle.data

/-- Replacement loop with explicit fuel (structural recursion so that the
kernel can evaluate it; the fuel never runs out because every step consumes
at least one character of the list and one unit of fuel). -/
def replaceAux (needle repl : List Char) : Nat → List Char → List Char
  | 0, l => l
  | _ + 1, [] => []
  | fuel + 1, c :: t =>
    if needle.isPrefixOf (c :: t) ∧ needle ≠ [] then
      repl ++ replaceAux needle repl fuel ((c :: t).drop needle.length)
    else
      c :: replaceAux needle repl fuel t

/-- Left-to-right, non-overlapping replacement of every occurrence of a
non-empty needle, as Python str.replace. -/
def replaceSubL (needle repl l : List Char) : List Char :=
  replaceAux needle repl l.length l

/-- Python str.replace on strings. -/
def pyReplace (s needle repl : String) : String :=
  ⟨replaceSubL needle.data repl.data s.data⟩

/-- Numeric value of an ASCII digit character. -/
def digitVal (c : Char) : Nat := c.toNat - 48

/-- Reads a list of ASCII digits as a natural number (empty list gives 0). -/
def digitsToNat (l : List Char) : Nat :=
  l.foldl (fun a c => a * 10 + digitVal c) 0

/-- Parses a plain decimal literal, modelling Python float() on the literal
forms that occur in tabular cell data: optional sign, digits with at most one
decimal point and at least one digit.  Exponent and underscore forms, and the
special words accepted by float(), are not modelled; on those this parser
returns none (such tokens are dropped from the candidate pool either way). -/
def parseFloatCore (l : List Char) : Option ℚ :=
  let signAndRest : ℤ × List Char :=
    match l with
    | '+' :: t => (1, t)
    | '-' :: t => (-1, t)
    | _ => (1, l)
  let sgn := signAndRest.1
  let body := signAndRest.2
  if body.all (fun c => c.isDigit || c = '.') ∧
      (body.filter (· = '.')).length ≤ 1 ∧
      (body.filter (·.isDigit)).length ≥ 1 then
    let ip := body.takeWhile (· ≠ '.')
    let fp := (body.drop ip.length).drop 1
    some (mkRat (sgn * ((digitsToNat ip : ℤ) * 10 ^ fp.length + (digitsToNat fp : ℤ)))
      (10 ^ fp.length))
  else
    none

/-- Python float(s) after stripping surrounding whitespace. -/
def parseFloat (s : String) : Option ℚ :=
  parseFloatCore (pyStripL s.data)

/-! ## app.py : landed-cost allocator -/

/-- One payment record of a supplier order.  app.py builds these dicts with
keys amount_usd and fx_rate; the data model of the spec also allows a
EUR-denominated amount, carried here as the optional key amount_eur so that the
code can be compared against the spec conversion rule.  calculate_landed_costs
reads only amount_usd and fx_rate. -/
structure Payment where
  amount_usd : Option ℚ
  fx_rate : Option ℚ
  amount_eur : Option ℚ
deriving DecidableEq, Repr

/-- One line item dict as consumed by calculate_landed_costs:
item.get(key, default) is modelled by the field (with Option where the code
supplies a non-trivial default such as category falling back to Other). -/
structure AllocItem where
  ean : String
  description : String
  category : Option String
  quantity : ℤ
  unit_price_usd : ℚ
  cbm : ℚ
deriving DecidableEq, Repr

/-- One supplier order dict: name, number, up to two payments, line items. -/
structure SupplierOrder where
  supplier_name : String
  order_number : String
  payment_1 : Option Payment
  payment_2 : Option Payment
  line_items : List AllocItem
deriving DecidableEq, Repr

/-- Container metadata dict; both totals may be absent. -/
structure ContainerInfo where
  container_id : String
  total_freight_eur : Option ℚ
  total_cbm : Option ℚ
deriving DecidableEq, Repr

/-- Value of one entry of the import_duties mapping: either a config dict with
an optional duty_rate key, or a bare number (both shapes appear in app.py). -/
inductive DutyVal where
  | cfg (duty_rate : Option ℚ)
  | scalar (v : ℚ)
deriving DecidableEq, Repr

/-- Import-duty mapping, category name to duty value. -/
def DutyTable := List (String × DutyVal)

/-- Duty rate for a category, as computed in calculate_landed_costs:
import_duties.get(category, {}) then duty_rate key (default 0) divided by 100,
or the bare number divided by 100. -/
def dutyRateOf (duties : DutyTable) (category : String) : ℚ :=
  (match duties.find? (fun e => e.1 = category) with
   | none => 0
   | some (_, DutyVal.cfg r) => r.getD 0
   | some (_, DutyVal.scalar v) => v) / 100

/-- Order USD total as computed in calculate_landed_costs: the sum of
quantity times unit price over ALL line items of the order (the source applies
no quantity filter here). -/
def totalOrderUsd (o : SupplierOrder) : ℚ :=
  (o.line_items.map (fun it => (it.quantity : ℚ) * it.unit_price_usd)).sum

/-- EUR contribution of one payment as computed in calculate_landed_costs:
p.get(amount_usd, 0) * p.get(fx_rate, 1). -/
def paymentEurCode (p : Payment) : ℚ :=
  p.amount_usd.getD 0 * p.fx_rate.getD 1

/-- Paid EUR total of an order as computed in calculate_landed_costs: the two
optional payments each contribute amount_usd times fx_rate. -/
def totalPaidEur (o : SupplierOrder) : ℚ :=
  (match o.payment_1 with | some p => paymentEurCode p | none => 0) +
    (match o.payment_2 with | some p => paymentEurCode p | none => 0)

/-- Effective container CBM: container_info.get(total_cbm, 0) or 1, so a
missing or zero value becomes 1. -/
def effContainerCbm (c : ContainerInfo) : ℚ :=
  match c.total_cbm with
  | none => 1
  | some v => if v = 0 then 1 else v

/-- Effective freight total: container_info.get(total_freight_eur, 0) or 0. -/
def effFreight (c : ContainerInfo) : ℚ :=
  c.total_freight_eur.getD 0

/-- One output row of the allocator, carrying the pre-rounding values (the
source rounds per-unit figures to 4 decimals and totals to 2 only when building
the presentation dict). -/
structure CostRow where
  ean : String
  product : String
  supplier : String
  order : String
  category : String
  quantity : ℤ
  cbm : ℚ
  unit_price_usd : ℚ
  product_cost_per_unit : ℚ
  shipping_cost_per_unit : ℚ
  duty_rate_pct : ℚ
  import_duty_per_unit : ℚ
  landed_cost_per_unit : ℚ
  total_value_eur : ℚ
deriving DecidableEq, Repr

/-- Builds the output row for one line item, mirroring the loop body of
calculate_landed_costs (totalUsd, paid, cbmTot and freight are the values the
loop computed before iterating). -/
def mkCostRow (o : SupplierOrder) (duties : DutyTable)
    (totalUsd paid cbmTot freight : ℚ) (it : AllocItem) : CostRow :=
  let qty := it.quantity
  let category := it.category.getD "Other"
  let itemValueUsd : ℚ := (qty : ℚ) * it.unit_price_usd
  let valueProportion := if totalUsd > 0 then itemValueUsd / totalUsd else 0
  let allocatedCostEur := paid * valueProportion
  let productCostPerUnit := if qty > 0 then allocatedCostEur / (qty : ℚ) else 0
  let cbmProportion := if cbmTot > 0 then it.cbm / cbmTot else 0
  let shippingCostTotal := freight * cbmProportion
  let shippingCostPerUnit := if qty > 0 then shippingCostTotal / (qty : ℚ) else 0
  let dutyRate := dutyRateOf duties category
  let importDutyPerUnit := productCostPerUnit * dutyRate
  let landedCostPerUnit := productCostPerUnit + shippingCostPerUnit + importDutyPerUnit
  { ean := it.ean
    product := it.description
    supplier := o.supplier_name
    order := o.order_number
    category := category
    quantity := qty
    cbm := it.cbm
    unit_price_usd := it.unit_price_usd
    product_cost_per_unit := productCostPerUnit
    shipping_cost_per_unit := shippingCostPerUnit
    duty_rate_pct := dutyRate * 100
    import_duty_per_unit := importDutyPerUnit
    landed_cost_per_unit := landedCostPerUnit
    total_value_eur := landedCostPerUnit * (qty : ℚ) }

/-- Rows produced for one order: items with quantity at most 0 are skipped by
the continue statement, every other item yields exactly one row. -/
def calcOrderRows (c : ContainerInfo) (duties : DutyTable) (o : SupplierOrder) :
    List CostRow :=
  let totalUsd := totalOrderUsd o
  let paid := totalPaidEur o
  o.line_items.filterMap (fun it =>
    if it.quantity ≤ 0 then none
    else some (mkCostRow o duties totalUsd paid (effContainerCbm c) (effFreight c) it))

/-- Embedding of calculate_landed_costs from app.py: iterates the orders and
concatenates their rows. -/
def calculate_landed_costs (orders : List SupplierOrder) (c : ContainerInfo)
    (duties : DutyTable) : List CostRow :=
  orders.flatMap (calcOrderRows c duties)

/-! Definitions following the wording of the spec, for comparison with the
code (refinement checks for claims about totals). -/

/-- Modelled from the spec: conversion of one payment to EUR as §4.3 step 2
words it, amountEUR taken directly when present, otherwise amountUSD times
fxRate.  This is the spec side of the comparison; the code side is
paymentEurCode. -/
def specPaymentEur (p : Payment) : ℚ :=
  match p.amount_eur with
  | some e => e
  | none => p.amount_usd.getD 0 * p.fx_rate.getD 1

/-- Modelled from the spec: orderPaidEUR as the sum of the converted payments
of the order. -/
def specOrderPaidEur (o : SupplierOrder) : ℚ :=
  (match o.payment_1 with | some p => specPaymentEur p | none => 0) +
    (match o.payment_2 with | some p => specPaymentEur p | none => 0)

/-- Modelled from the spec: orderTotalUSD as the sum of quantity times unit
price over the line items with quantity strictly positive (§4.3 step 1). -/
def specOrderTotalUsd (o : SupplierOrder) : ℚ :=
  ((o.line_items.filter (fun it => 0 < it.quantity)).map
    (fun it => (it.quantity : ℚ) * it.unit_price_usd)).sum

/-! ## matcher.py : product-matching engine -/

/-- One row of the Motherbase catalog, with the columns read by matcher.py
already stringified (missing cells become the empty string, as the source
defaults them). -/
structure CatalogRow where
  ean : String
  internal_code : String
  external_code : String
  simplified_id : String
  title : String
  category : String
  supplier : String
  cbm : ℚ
  box_amount : ℤ
deriving DecidableEq, Repr

/-- Catalog row whose fields are all empty or zero (index values built below
are always in range, so this default is never selected). -/
def dfltCatalogRow : CatalogRow :=
  { ean := "", internal_code := "", external_code := "", simplified_id := ""
    title := "", category := "", supplier := "", cbm := 0, box_amount := 0 }

/-- Result record returned by ProductMatcher.match. -/
structure MatchResult where
  ean : String
  title : String
  category : String
  supplier : String
  internal_code : String
  external_code : String
  cbm : ℚ
  box_amount : ℤ
  confidence : ℚ
  match_method : String
deriving DecidableEq, Repr

/-- Embedding of normalize from matcher.py (the name normalize is taken by Mathlib): uppercase, then keep only the
characters A-Z and 0-9. -/
def normalizeText (text : String) : String :=
  ⟨(text.data.map pyUpperChar).filter
    (fun c => ('A' ≤ c ∧ c ≤ 'Z') ∨ ('0' ≤ c ∧ c ≤ '9'))⟩

/-- Insert into an insertion-ordered association list with Python dict
semantics: an existing key keeps its position and gets the new value, a new
key is appended at the end. -/
def dictInsert (m : List (String × Nat)) (k : String) (v : Nat) :
    List (String × Nat) :=
  if m.any (fun e => e.1 = k) then
    m.map (fun e => if e.1 = k then (k, v) else e)
  else
    m ++ [(k, v)]

/-- Lookup in an association list modelling a Python dict. -/
def dictGet (m : List (String × Nat)) (k : String) : Option Nat :=
  (m.find? (fun e => e.1 = k)).map (fun e => e.2)

/-- EAN index built by _build_indices: key str(EAN).strip() unless empty or
the literal string nan. -/
def eanIndex (mb : List CatalogRow) : List (String × Nat) :=
  mb.enum.foldl (fun m p =>
    let k := pyStrip p.2.ean
    if k ≠ "" ∧ k ≠ "nan" then dictInsert m k p.1 else m) []

/-- External-code index built by _build_indices (normalized, empty skipped). -/
def extIndex (mb : List CatalogRow) : List (String × Nat) :=
  mb.enum.foldl (fun m p =>
    let k := normalizeText p.2.external_code
    if k ≠ "" then dictInsert m k p.1 else m) []

/-- Internal-code index built by _build_indices (normalized, empty skipped). -/
def intIndex (mb : List CatalogRow) : List (String × Nat) :=
  mb.enum.foldl (fun m p =>
    let k := normalizeText p.2.internal_code
    if k ≠ "" then dictInsert m k p.1 else m) []

/-- Simplified-ID index built by _build_indices (normalized, empty skipped). -/
def simpIndex (mb : List CatalogRow) : List (String × Nat) :=
  mb.enum.foldl (fun m p =>
    let k := normalizeText p.2.simplified_id
    if k ≠ "" then dictInsert m k p.1 else m) []

/-- Embedding of _get_result: reads the row at the index and packages it with
the confidence and method tag. -/
def getResult (mb : List CatalogRow) (idx : Nat) (confidence : ℚ)
    (method : String) : MatchResult :=
  let r := mb.getD idx dfltCatalogRow
  { ean := r.ean, title := r.title, category := r.category
    supplier := r.supplier, internal_code := r.internal_code
    external_code := r.external_code, cbm := r.cbm, box_amount := r.box_amount
    confidence := confidence, match_method := method }

/-- The PRODUCT_NAME_MAPPINGS table of matcher.py, in source order. -/
def PRODUCT_NAME_MAPPINGS : List (String × String) :=
  [("power s7", "VS0711"),
   ("power s8", "VS0811"),
   ("power s9", "VS0911"),
   ("power s12", "VS1211"),
   ("power s12c", "VS12C"),
   ("power s65", "VS6511"),
   ("power s100", "VS10011"),
   ("power cube s5", "VS0511"),
   ("power cube s6", "VS0611"),
   ("power cube s6-w", "VS0621"),
   ("power cube s6-5m", "VS0651"),
   ("power cube s6-3m", "VS0631"),
   ("split x2", "VX0212"),
   ("split x3", "VX0312"),
   ("split x4", "VX0412"),
   ("split x7", "VX0712"),
   ("power s2", "VS0211"),
   ("office t3", "VT0311"),
   ("travel y711", "VY711"),
   ("travel y712", "VY712"),
   ("travel y713", "VY713"),
   ("travel y714", "VY714")]

/-- The locale colour-swap table of expand_search_text, in source order. -/
def COLOR_SWAPS : List (String × String) :=
  [("zwart", "black"), ("wit", "white"), ("grijs", "grey"), ("zilver", "silver")]

/-- Embedding of expand_search_text from matcher.py: the original text first,
then the mapped internal codes of every alias contained in the lowered and
stripped text, then the colour-name swaps of that lowered text. -/
def expand_search_text (text : String) : List String :=
  let text_lower := pyStrip (pyLower text)
  ([text] ++
    PRODUCT_NAME_MAPPINGS.filterMap (fun nc =>
      if strContains text_lower nc.1 then some nc.2 else none)) ++
    COLOR_SWAPS.flatMap (fun p =>
      (if strContains text_lower p.1 then [pyReplace text_lower p.1 p.2] else []) ++
        (if strContains text_lower p.2 then [pyReplace text_lower p.2 p.1] else []))

/-- Length of the common run of a and b starting at positions i and j, cut off
at the window ends ahi and bhi.  Building block for the SequenceMatcher model
behind similarity(). -/
def runLenW (a b : List Char) (ahi bhi : Nat) (i j : Nat) : Nat :=
  if h : i < ahi ∧ j < bhi ∧ a.get? i ≠ none ∧ a.get? i = b.get? j then
    1 + runLenW a b ahi bhi (i + 1) (j + 1)
  else
    0
termination_by ahi - i
decreasing_by omega

/-- Longest matching block of the windows, as difflib find_longest_match with
no junk: the longest common substring, earliest start in a, then earliest
start in b.  Returns (i, j, size); size 0 gives (alo, blo, 0). -/
def findLongestMatch (a b : List Char) (alo ahi blo bhi : Nat) :
    Nat × Nat × Nat :=
  ((List.range' alo (ahi - alo)).flatMap (fun i =>
      (List.range' blo (bhi - blo)).map (fun j => (i, j)))).foldl
    (fun best ij =>
      let k := runLenW a b ahi bhi ij.1 ij.2
      if k > best.2.2 then (ij.1, ij.2, k) else best)
    (alo, blo, 0)

/-- Total size of the matching blocks of the two windows, by the recursive
decomposition difflib uses: take the longest block, recurse left and right.
The fuel argument only serves termination; the top-level call supplies more
fuel than the recursion depth can reach. -/
def matchTotalAux (a b : List Char) : Nat → Nat → Nat → Nat → Nat → Nat
  | 0, _, _, _, _ => 0
  | fuel + 1, alo, ahi, blo, bhi =>
    let m := findLongestMatch a b alo ahi blo bhi
    if m.2.2 = 0 then 0
    else
      matchTotalAux a b fuel alo m.1 blo m.2.1 + m.2.2 +
        matchTotalAux a b fuel (m.1 + m.2.2) ahi (m.2.1 + m.2.2) bhi

/-- Total matched size over the full lists. -/
def matchTotal (a b : List Char) : Nat :=
  matchTotalAux a b (a.length + b.length + 1) 0 a.length 0 b.length

/-- Embedding of similarity from matcher.py: the difflib SequenceMatcher
ratio of the lower-cased inputs, 2M over the total length.  The difflib
autojunk heuristic only alters results when the second string has at least
200 characters; it is not modelled (catalog codes and titles are shorter). -/
def simScore (a b : String) : ℚ :=
  let x := a.data.map pyLowerChar
  let y := b.data.map pyLowerChar
  let t := x.length + y.length
  if t = 0 then 1 else 2 * (matchTotal x y : ℚ) / (t : ℚ)

/-- Supplier-hint filter of strategies 4 and 6: a missing or empty hint passes
every row, otherwise the lowered hint must occur in the lowered supplier of
the row. -/
def hintOk (mb : List CatalogRow) (hint : Option String) (idx : Nat) : Bool :=
  match hint with
  | none => true
  | some h =>
    if h = "" then true
    else strContains (pyLower (mb.getD idx dfltCatalogRow).supplier) (pyLower h)

/-- Title-similarity pass of strategy 6: fold over the catalog keeping the
best score above the 0.5 floor; the hint, when truthy and contained in the
row supplier, adds 0.1 before the comparison. -/
def titleScan (mb : List CatalogRow) (s : String) (hint : Option String) :
    Option Nat × ℚ :=
  mb.enum.foldl (fun acc p =>
    let score0 := simScore s p.2.title
    let boost : ℚ :=
      match hint with
      | none => 0
      | some h =>
        if h = "" then 0
        else if strContains (pyLower p.2.supplier) (pyLower h) then 1 / 10 else 0
    let score := score0 + boost
    if score > acc.2 then (some p.1, score) else acc)
    (none, 1 / 2)

/-- Python str.isdigit for ASCII content: non-empty and all digits. -/
def pyIsDigit (s : String) : Bool :=
  s ≠ "" && s.data.all Char.isDigit

/-- Embedding of ProductMatcher.match from matcher.py.  The catalog stands in
for the matcher object (the indices are pure functions of it).  A missing or
falsy (empty) search text returns none at once.  The cascade is: the
expanded-terms loop against the internal-code index (0.9), exact EAN (1.0),
exact external code (0.95), exact internal code (0.95), partial external code
(0.8), simplified-ID similarity (0.75) or containment (0.7), then the title
scan (min(best, 0.7)).  Named matchProduct because match is a Lean keyword. -/
def matchProduct (mb : List CatalogRow) (search_text : Option String)
    (supplier_hint : Option String) : Option MatchResult :=
  match search_text with
  | none => none
  | some raw =>
    if raw = "" then none
    else
      let s := pyStrip raw
      let sNorm := normalizeText s
      let terms := expand_search_text s
      match terms.findSome? (fun t => dictGet (intIndex mb) (normalizeText t)) with
      | some i => some (getResult mb i (9 / 10) "mapped_internal_code")
      | none =>
        match (if pyIsDigit s ∧ s.length = 13 then dictGet (eanIndex mb) s
               else none) with
        | some i => some (getResult mb i 1 "exact_ean")
        | none =>
          match dictGet (extIndex mb) sNorm with
          | some i => some (getResult mb i (19 / 20) "exact_external_code")
          | none =>
            match dictGet (intIndex mb) sNorm with
            | some i => some (getResult mb i (19 / 20) "exact_internal_code")
            | none =>
              match (extIndex mb).find? (fun e =>
                  (strContains e.1 sNorm || strContains sNorm e.1) &&
                    hintOk mb supplier_hint e.2) with
              | some e => some (getResult mb e.2 (4 / 5) "partial_external_code")
              | none =>
                match (simpIndex mb).findSome? (fun e =>
                    if simScore sNorm e.1 > 8 / 10 then
                      some (getResult mb e.2 (3 / 4) "simplified_id")
                    else if strContains sNorm e.1 then
                      some (getResult mb e.2 (7 / 10) "partial_simplified_id")
                    else none) with
                | some r => some r
                | none =>
                  match titleScan mb s supplier_hint with
                  | (some i, best) =>
                    some (getResult mb i (min best (7 / 10)) "title_similarity")
                  | (none, _) => none

/-! ## parsers.py : document parsing layer -/

/-- Line item emitted by the document parsers (dataclass LineItem). -/
structure LineItem where
  product_code : String
  description : String
  quantity : ℤ
  unit_price_usd : ℚ
  cbm : ℚ
  color : String := ""
  cartons : ℤ := 0
  gross_weight : ℚ := 0
  net_weight : ℚ := 0
deriving DecidableEq, Repr

/-- Raw cell of a tabular document: missing (NaN), numeric, or text. -/
inductive Cell where
  | blank
  | num (q : ℚ)
  | str (s : String)
deriving DecidableEq, Repr

/-- Model of pd.isna on a cell. -/
def Cell.isNa : Cell → Bool
  | .blank => true
  | _ => false

/-- Decimal rendering of a rational, standing in for Python str() on a
numeric cell (exact for cells that came from decimal data, which is the only
kind the documents contain; a float prints with at least one fraction
digit). -/
def decStr (q : ℚ) : String :=
  if q.den = 1 then toString q.num ++ ".0"
  else
    match (List.range 28).find? (fun k => (10 ^ k) % q.den = 0) with
    | some k =>
      let m := (q.num * (((10 ^ k : ℕ) / q.den : ℕ) : ℤ)).natAbs
      let frs := toString (m % 10 ^ k)
      let pad := String.mk (List.replicate (k - frs.length) '0')
      (if q.num < 0 then "-" else "") ++ toString (m / 10 ^ k) ++ "." ++ pad ++ frs
    | none => toString q.num ++ "/" ++ toString q.den

/-- Python str() of a cell as it appears in joined row text (str of NaN is
the word nan, but NaN cells are filtered out before joining). -/
def cellStr : Cell → String
  | .blank => "nan"
  | .num q => decStr q
  | .str s => s

/-- Embedding of clean_number from parsers.py: numeric cells pass through,
text cells are stripped, cleared of thousands separators, dollar signs and the
mangled euro sign, then parsed as a float; anything else is none. -/
def clean_number : Cell → Option ℚ
  | .blank => none
  | .num q => some q
  | .str s =>
    parseFloat (pyReplace (pyReplace (pyReplace (pyStrip s) "," "") "$" "")
      "â‚¬" "")

/-- Flattened row text: the space-join of str() over the non-NaN cells. -/
def rowText (row : List Cell) : String :=
  String.intercalate " " ((row.filter (fun c => ¬c.isNa)).map cellStr)

/-- Case-insensitive equality of ASCII characters, as re.IGNORECASE. -/
def ciEq (a b : Char) : Bool := pyUpperChar a = pyUpperChar b

/-- Case-insensitive prefix test. -/
def ciPrefix : List Char → List Char → Bool
  | [], _ => true
  | _ :: _, [] => false
  | p :: ps, c :: cs => ciEq p c && ciPrefix ps cs

/-- Character class [A-Z] under IGNORECASE. -/
def isUpperAlphaCI (c : Char) : Bool :=
  let u := pyUpperChar c
  decide ('A' ≤ u ∧ u ≤ 'Z')

/-- Character class [A-Z0-9] under IGNORECASE. -/
def isAlnumCI (c : Char) : Bool := isUpperAlphaCI c || c.isDigit

/-- Character class [A-Z0-9-] under IGNORECASE. -/
def isCodeBodyChar (c : Char) : Bool := isAlnumCI c || c = '-'

/-- Leftmost match of the regex LIT[cls]+ (case-insensitive) in a character
list: at the first position where the literal prefix matches and at least one
class character follows, return the literal part plus the maximal greedy run,
in original case, as re.search does. -/
def searchLitPlus (lit : List Char) (cls : Char → Bool) : List Char → Option (List Char)
  | [] => none
  | c :: t =>
    if ciPrefix lit (c :: t) then
      let run := ((c :: t).drop lit.length).takeWhile cls
      if run ≠ [] then some ((c :: t).take lit.length ++ run)
      else searchLitPlus lit cls t
    else searchLitPlus lit cls t

/-- Leftmost match of the regex V[XSTC]\d\d\d\d (written V[XSTC]{4 digits} in
the source) under IGNORECASE. -/
def searchVCode : List Char → Option (List Char)
  | [] => none
  | c :: t =>
    if ciEq c 'V' then
      match t with
      | c1 :: t1 =>
        if ciEq c1 'X' || ciEq c1 'S' || ciEq c1 'T' || ciEq c1 'C' then
          let ds := t1.take 4
          if ds.length = 4 && ds.all Char.isDigit then some ((c :: t).take 6)
          else searchVCode t
        else searchVCode t
      | [] => none
    else searchVCode t

/-- Attempt of the regex [A-Z]{2,4}-[A-Z0-9]{4,} anchored at the start of s
with a letter-run of exactly n: n letters, a hyphen, then a greedy run of at
least 4 alphanumerics. -/
def genCodeAt (s : List Char) (n : Nat) : Option (List Char) :=
  let pre := s.take n
  if pre.length = n && pre.all isUpperAlphaCI then
    match s.drop n with
    | '-' :: rest =>
      let run := rest.takeWhile isAlnumCI
      if run.length ≥ 4 then some (pre ++ '-' :: run) else none
    | _ => none
  else none

/-- Leftmost match of [A-Z]{2,4}-[A-Z0-9]{4,} under IGNORECASE, with the
greedy backtracking order of the quantifier (4, then 3, then 2 letters). -/
def searchGenCode : List Char → Option (List Char)
  | [] => none
  | c :: t =>
    match genCodeAt (c :: t) 4 with
    | some m => some m
    | none =>
      match genCodeAt (c :: t) 3 with
      | some m => some m
      | none =>
        match genCodeAt (c :: t) 2 with
        | some m => some m
        | none => searchGenCode t

/-- The product_patterns list of GenericParser.parse, tried in priority
order with first match winning. -/
def findProductCode (text : String) : Option String :=
  match searchLitPlus ['T', 'P', '-'] isCodeBodyChar text.data with
  | some m => some ⟨m⟩
  | none =>
    match searchLitPlus ['O', 'L', '-'] isCodeBodyChar text.data with
    | some m => some ⟨m⟩
    | none =>
      match searchVCode text.data with
      | some m => some ⟨m⟩
      | none =>
        match searchGenCode text.data with
        | some m => some ⟨m⟩
        | none => none

/-- Header and footer markers that make GenericParser.parse skip a row. -/
def genericMarkers : List String := ["total", "invoice", "date", "address", "bank"]

/-- One loop iteration of GenericParser.parse.  ok none is a silently skipped
row; error models the uncaught ValueError that max() raises on an empty
sequence, which happens when the row has positive numbers but none that is
integral and below 50000. -/
def genericParseRow (row : List Cell) : Except String (Option LineItem) :=
  let text := rowText row
  if genericMarkers.any (fun m => strContains (pyLower text) m) then .ok none
  else
    match findProductCode text with
    | none => .ok none
    | some code =>
      let numbers := (row.filterMap clean_number).filter (fun n => n > 0)
      if numbers.length ≥ 1 then
        let cands := numbers.filter (fun n => n.den = 1 ∧ n < 50000)
        match cands.max? with
        | none => .error "ValueError: max() arg is an empty sequence"
        | some mx =>
          let qty : ℤ := (if mx = 0 then 0 else mx).num
          if qty > 0 then
            .ok (some { product_code := code, description := code
                        quantity := qty, unit_price_usd := 0, cbm := 0 })
          else .ok none
      else .ok none

/-- Embedding of GenericParser.parse: rows processed top to bottom, skipped
rows contribute nothing, and an uncaught exception aborts the whole call. -/
def genericParse : List (List Cell) → Except String (List LineItem)
  | [] => .ok []
  | r :: rs =>
    match genericParseRow r with
    | .error e => .error e
    | .ok none => genericParse rs
    | .ok (some it) => (genericParse rs).map (fun l => it :: l)

/-- Embedding of clean_code from parsers.py: uppercase, keep A-Z and 0-9
(same normalization as the matcher). -/
def clean_code (code : String) : String :=
  ⟨(code.data.map pyUpperChar).filter
    (fun c => ('A' ≤ c ∧ c ≤ 'Z') ∨ ('0' ≤ c ∧ c ≤ '9'))⟩

/-- Python-dict insert used to build pl_lookup: append the item to the list
of an existing key, or append a fresh singleton entry. -/
def plInsert (m : List (String × List LineItem)) (k : String) (p : LineItem) :
    List (String × List LineItem) :=
  if m.any (fun e => e.1 = k) then
    m.map (fun e => if e.1 = k then (e.1, e.2 ++ [p]) else e)
  else
    m ++ [(k, [p])]

/-- The pl_lookup dict of merge_ci_pl: PL items grouped by cleaned code. -/
def plLookup (pl : List LineItem) : List (String × List LineItem) :=
  pl.foldl (fun m p => plInsert m (clean_code p.product_code) p) []

/-- Lookup in the grouped PL dict. -/
def plGet (m : List (String × List LineItem)) (k : String) :
    Option (List LineItem) :=
  (m.find? (fun e => e.1 = k)).map (fun e => e.2)

/-- Embedding of merge_ci_pl from parsers.py: every CI item is emitted once;
when its cleaned code has PL matches, its CBM becomes the sum of their CBM,
otherwise the item is left as it is. -/
def merge_ci_pl (ci pl : List LineItem) : List LineItem :=
  let lk := plLookup pl
  ci.map (fun c =>
    match plGet lk (clean_code c.product_code) with
    | some ms => { c with cbm := (ms.map (fun p : LineItem => p.cbm)).sum }
    | none => c)

/-! ## Concrete inputs used by the claim evaluations below -/

/-- Catalog with one row whose internal code is a plain product code; the
search text VS0811 contains no alias of the mapping table. -/
def mbC3 : List CatalogRow :=
  [{ ean := "8719326123456", internal_code := "VS0811", external_code := "EXT9"
     simplified_id := "S0811", title := "Voomy Power S8"
     category := "Stekkerdoos", supplier := "Toporek"
     cbm := 1 / 100, box_amount := 24 }]

/-- Catalog whose single row has a 13-digit EAN that is also its internal
code and a substring of its external code. -/
def mbC8 : List CatalogRow :=
  [{ ean := "1234567890123", internal_code := "1234567890123"
     external_code := "X1234567890123X", simplified_id := ""
     title := "T", category := "C", supplier := "S", cbm := 0, box_amount := 0 }]

/-- Order whose single payment is EUR-denominated (amount_eur only). -/
def cexC1Order : SupplierOrder :=
  { supplier_name := "S", order_number := "1"
    payment_1 := some { amount_usd := none, fx_rate := none, amount_eur := some 100 }
    payment_2 := none
    line_items := [{ ean := "", description := "A", category := none
                     quantity := 1, unit_price_usd := 1, cbm := 0 }] }

/-- Order with two USD payments, for the amended payment-total claim. -/
def wC1Order : SupplierOrder :=
  { supplier_name := "S", order_number := "2"
    payment_1 := some { amount_usd := some 1000, fx_rate := some (92 / 100)
                        amount_eur := none }
    payment_2 := some { amount_usd := some 500, fx_rate := some (9 / 10)
                        amount_eur := none }
    line_items := [] }

/-- Order with a negative-quantity line item of non-zero value. -/
def cexC4Order : SupplierOrder :=
  { supplier_name := "S", order_number := "3"
    payment_1 := none, payment_2 := none
    line_items :=
      [{ ean := "", description := "A", category := none
         quantity := 10, unit_price_usd := 1, cbm := 0 },
       { ean := "", description := "B", category := none
         quantity := -5, unit_price_usd := 2, cbm := 0 }] }

/-- Order with a negative-quantity item of non-zero USD value and one
payment, breaking allocation conservation. -/
def cexC5Order : SupplierOrder :=
  { supplier_name := "S", order_number := "4"
    payment_1 := some { amount_usd := some 5, fx_rate := some 1, amount_eur := none }
    payment_2 := none
    line_items :=
      [{ ean := "", description := "A", category := none
         quantity := 10, unit_price_usd := 1, cbm := 0 },
       { ean := "", description := "B", category := none
         quantity := -5, unit_price_usd := 1, cbm := 0 }] }

/-- Container used in the conservation counterexample. -/
def cexC5Cont : ContainerInfo :=
  { container_id := "", total_freight_eur := some 0, total_cbm := some 1 }

/-- Well-formed order of the concrete scenario of the spec: two positive
items of equal USD value and one zero-quantity item, one payment of 1000 USD
at 0.9. -/
def wOrder : SupplierOrder :=
  { supplier_name := "Toporek", order_number := "10"
    payment_1 := some { amount_usd := some 1000, fx_rate := some (9 / 10)
                        amount_eur := none }
    payment_2 := none
    line_items :=
      [{ ean := "A", description := "A", category := none
         quantity := 100, unit_price_usd := 5, cbm := 2 },
       { ean := "B", description := "B", category := none
         quantity := 50, unit_price_usd := 10, cbm := 0 },
       { ean := "C", description := "C", category := none
         quantity := 0, unit_price_usd := 3, cbm := 1 }] }

/-- Container of the concrete scenario: 1000 EUR freight over 10 CBM. -/
def wCont : ContainerInfo :=
  { container_id := "X", total_freight_eur := some 1000, total_cbm := some 10 }

/-- CI items for the merge evaluation (CBM 0, as CI parsers emit them). -/
def wCI : List LineItem :=
  [{ product_code := "TP-A", description := "a", quantity := 5
     unit_price_usd := 1, cbm := 0 },
   { product_code := "TP-B", description := "b", quantity := 7
     unit_price_usd := 2, cbm := 0 }]

/-- PL items for the merge evaluation: two rows normalize to TPA, none to
TPB. -/
def wPL : List LineItem :=
  [{ product_code := "tp a", description := "", quantity := 3
     unit_price_usd := 0, cbm := 3 / 2 },
   { product_code := "TPA-", description := "", quantity := 2
     unit_price_usd := 0, cbm := 1 / 2 },
   { product_code := "OL-X", description := "", quantity := 2
     unit_price_usd := 0, cbm := 4 }]

/-- Row that makes GenericParser.parse raise: it carries a recognizable
product code and its only positive parseable number is non-integral. -/
def crashRow : List Cell := [Cell.str "TP-ABC", Cell.str "3.5"]

/-! ## Helper lemmas -/

theorem isDigit_bounds (c : Char) (h : c.isDigit = true) : '0' ≤ c ∧ c ≤ '9' := by
  simp only [Char.isDigit, Bool.and_eq_true, decide_eq_true_eq] at h
  exact ⟨Char.le_def.mpr h.1, Char.le_def.mpr h.2⟩

theorem not_upper_of_digit (c : Char) (h : c.isDigit = true) : ¬('A' ≤ c ∧ c ≤ 'Z') := by
  rintro ⟨hA, _⟩
  exact absurd (lt_of_le_of_lt (isDigit_bounds c h).2 (by decide : ('9' : Char) < 'A'))
    (not_lt.mpr hA)

theorem pyLowerChar_digit (c : Char) (h : c.isDigit = true) : pyLowerChar c = c := by
  unfold pyLowerChar
  rw [if_neg (not_upper_of_digit c h)]

theorem pyIsSpace_digit (c : Char) (h : c.isDigit = true) : pyIsSpace c = false := by
  simp only [pyIsSpace, Bool.decide_or, Bool.or_eq_false_iff, decide_eq_false_iff_not]
  refine ⟨?_, ?_, ?_, ?_, ?_, ?_⟩ <;> · rintro rfl; simp at h

theorem pyStripL_eq_self (l : List Char) (h : ∀ c ∈ l, pyIsSpace c = false) :
    pyStripL l = l := by
  have h1 : l.dropWhile pyIsSpace = l := by
    cases l with
    | nil => rfl
    | cons c t => simp [List.dropWhile, h c (List.mem_cons_self c t)]
  have h2 : l.reverse.dropWhile pyIsSpace = l.reverse := by
    cases hr : l.reverse with
    | nil => rfl
    | cons c t =>
      have hc : c ∈ l := by
        rw [← List.mem_reverse, hr]
        exact List.mem_cons_self c t
      simp [List.dropWhile, h c hc]
  unfold pyStripL
  rw [h1, h2, List.reverse_reverse]

theorem pyStrip_digits (s : String) (h : ∀ c ∈ s.data, c.isDigit = true) :
    pyStrip s = s := by
  unfold pyStrip
  rw [pyStripL_eq_self s.data (fun c hc => pyIsSpace_digit c (h c hc))]

theorem pyLower_digits (s : String) (h : ∀ c ∈ s.data, c.isDigit = true) :
    pyLower s = s := by
  unfold pyLower
  have hm : s.data.map pyLowerChar = s.data := by
    rw [List.map_congr_left (fun c hc => pyLowerChar_digit c (h c hc))]
    exact List.map_id' s.data
  rw [hm]

theorem containsSub_subset (hay needle : List Char)
    (h : containsSub hay needle = true) : needle ⊆ hay := by
  induction hay with
  | nil =>
    unfold containsSub at h
    simp only [Bool.or_false] at h
    rw [ List.isPrefixOf_iff_prefix] at h
    exact h.subset
  | cons c t ih =>
    unfold containsSub at h
    rcases Bool.or_eq_true_iff.mp h with hp | hr
    · rw [ List.isPrefixOf_iff_prefix] at hp
      exact hp.subset
    · intro x hx
      exact List.mem_cons_of_mem c (ih hr hx)

theorem strContains_digits_false (s t : String)
    (hs : ∀ c ∈ s.data, c.isDigit = true)
    (ht : t.data.any (fun c => !c.isDigit) = true) : strContains s t = false := by
  rcases List.any_eq_true.mp ht with ⟨c, hc, hcd⟩
  rw [Bool.not_eq_eq_eq_not, Bool.not_true] at hcd
  cases hcon : strContains s t with
  | false => rfl
  | true =>
    exact absurd (hs c (containsSub_subset s.data t.data hcon hc))
      (by simp [hcd])

theorem expand_digits (s : String) (h : ∀ c ∈ s.data, c.isDigit = true) :
    expand_search_text s = [s] := by
  unfold expand_search_text
  rw [pyLower_digits s h, pyStrip_digits s h]
  have hmap : PRODUCT_NAME_MAPPINGS.filterMap (fun nc =>
      if strContains s nc.1 then some nc.2 else none) = [] := by
    rw [List.filterMap_eq_nil_iff]
    intro nc hnc
    have hany : nc.1.data.any (fun c => !c.isDigit) = true := by
      have : PRODUCT_NAME_MAPPINGS.all (fun nc => nc.1.data.any (fun c => !c.isDigit)) = true := by
        decide
      exact List.all_eq_true.mp this nc hnc
    rw [strContains_digits_false s nc.1 h hany]
    rfl
  have hcol : COLOR_SWAPS.flatMap (fun p =>
      (if strContains s p.1 then [pyReplace s p.1 p.2] else []) ++
        (if strContains s p.2 then [pyReplace s p.2 p.1] else [])) = [] := by
    rw [List.flatMap_eq_nil_iff]
    intro p hp
    have h1 : p.1.data.any (fun c => !c.isDigit) = true := by
      have : COLOR_SWAPS.all (fun p => p.1.data.any (fun c => !c.isDigit)) = true := by decide
      exact List.all_eq_true.mp this p hp
    have h2 : p.2.data.any (fun c => !c.isDigit) = true := by
      have : COLOR_SWAPS.all (fun p => p.2.data.any (fun c => !c.isDigit)) = true := by decide
      exact List.all_eq_true.mp this p hp
    rw [strContains_digits_false s p.1 h h1, strContains_digits_false s p.2 h h2]
    simp
  simp only [hmap, hcol]
  simp

theorem sum_map_filterMap_if (l : List AllocItem) (mk : AllocItem → CostRow)
    (g : CostRow → ℚ) :
    ((l.filterMap (fun it => if it.quantity ≤ 0 then none else some (mk it))).map g).sum
      = (l.map (fun it => if it.quantity ≤ 0 then (0 : ℚ) else g (mk it))).sum := by
  induction l with
  | nil => rfl
  | cons a t ih =>
    by_cases hq : a.quantity ≤ 0
    · simp [List.filterMap_cons, hq, ih]
    · simp [List.filterMap_cons, hq, ih]

theorem length_filterMap_if (l : List AllocItem) (mk : AllocItem → CostRow) :
    (l.filterMap (fun it => if it.quantity ≤ 0 then none else some (mk it))).length
      = (l.filter (fun it => 0 < it.quantity)).length := by
  induction l with
  | nil => rfl
  | cons a t ih =>
    by_cases hq : a.quantity ≤ 0
    · have hn : ¬(0 < a.quantity) := by omega
      simp [List.filterMap_cons, List.filter_cons, hq, hn, ih]
    · have hp : 0 < a.quantity := by omega
      simp [List.filterMap_cons, List.filter_cons, hq, hp, ih]

theorem sum_filter_pos (l : List AllocItem)
    (hz : ∀ it ∈ l, it.quantity ≤ 0 → (it.quantity : ℚ) * it.unit_price_usd = 0) :
    (l.map (fun it => (it.quantity : ℚ) * it.unit_price_usd)).sum
      = ((l.filter (fun it => 0 < it.quantity)).map
          (fun it => (it.quantity : ℚ) * it.unit_price_usd)).sum := by
  induction l with
  | nil => rfl
  | cons a t ih =>
    have iht := ih (fun it hm hq => hz it (List.mem_cons_of_mem a hm) hq)
    by_cases hp : 0 < a.quantity
    · simp [List.filter_cons, hp, iht]
    · have h0 : (a.quantity : ℚ) * a.unit_price_usd = 0 :=
        hz a (List.mem_cons_self a t) (by omega)
      simp [List.filter_cons, hp, iht, h0]

theorem plGet_plInsert (m : List (String × List LineItem)) (k k2 : String)
    (p : LineItem) :
    plGet (plInsert m k p) k2 =
      if k2 = k then some ((plGet m k).getD [] ++ [p]) else plGet m k2 := by
  have hmap : ∀ (m : List (String × List LineItem)),
      (m.map (fun e => if e.1 = k then (e.1, e.2 ++ [p]) else e)).find?
          (fun e => e.1 = k2)
        = if k2 = k then (m.find? (fun e => e.1 = k)).map (fun e => (e.1, e.2 ++ [p]))
          else m.find? (fun e => e.1 = k2) := by
    intro m
    induction m with
    | nil => by_cases h : k2 = k <;> simp [h]
    | cons a t ih =>
      by_cases ha : a.1 = k
      · by_cases h2 : k2 = k
        · subst h2
          simp [List.find?_cons, ha]
        · have hak2 : ¬(a.1 = k2) := by
            rw [ha]
            exact fun h => h2 h.symm
          have hdk : decide (k = k2) = false := decide_eq_false (fun h => h2 h.symm)
          simp [List.find?_cons, ha, hak2, ih, h2, hdk]
      · by_cases h2 : k2 = k
        · subst h2
          have hd : decide (a.1 = k2) = false := decide_eq_false ha
          simp only [List.map_cons, if_neg ha, List.find?_cons, hd, ih, if_pos]
        · by_cases hk2 : a.1 = k2
          · simp [List.find?_cons, ha, hk2, h2]
          · simp [List.find?_cons, ha, hk2, h2, ih]
  unfold plInsert
  by_cases hAny : m.any (fun e => e.1 = k)
  · rw [if_pos hAny]
    unfold plGet
    rw [hmap m]
    by_cases h2 : k2 = k
    · rw [if_pos h2, if_pos h2]
      have hex : ∃ e, m.find? (fun e => e.1 = k) = some e := by
        rw [← Option.isSome_iff_exists, List.find?_isSome]
        simpa using hAny
      obtain ⟨e, he⟩ := hex
      simp [he]
    · rw [if_neg h2, if_neg h2]
  · rw [if_neg hAny]
    unfold plGet
    have hnone : m.find? (fun e => e.1 = k) = none := by
      rw [List.find?_eq_none]
      intro e he
      simp only [decide_eq_true_eq]
      intro hek
      exact absurd (List.any_eq_true.mpr ⟨e, he, decide_eq_true hek⟩) hAny
    rw [List.find?_append]
    by_cases h2 : k2 = k
    · subst h2
      simp [hnone, List.find?_cons]
    · have hkk2 : ¬(k = k2) := fun h => h2 h.symm
      cases hh : m.find? (fun e => e.1 = k2) with
      | some e => simp [hh, h2]
      | none => simp [hh, h2, List.find?_cons, hkk2]

theorem plLookup_go (pl : List LineItem) :
    ∀ (m : List (String × List LineItem)) (k : String),
      plGet (pl.foldl (fun m p => plInsert m (clean_code p.product_code) p) m) k =
        match plGet m k with
        | some l => some (l ++ pl.filter (fun p => clean_code p.product_code = k))
        | none =>
          if pl.filter (fun p => clean_code p.product_code = k) = [] then none
          else some (pl.filter (fun p => clean_code p.product_code = k)) := by
  induction pl with
  | nil =>
    intro m k
    cases h : plGet m k <;> simp [h]
  | cons p t ih =>
    intro m k
    rw [List.foldl_cons, ih (plInsert m (clean_code p.product_code) p) k,
      plGet_plInsert]
    by_cases hk : k = clean_code p.product_code
    · have hp : (clean_code p.product_code = k) := hk.symm
      rw [if_pos hk]
      cases h : plGet m k with
      | some l => simp [List.filter_cons, hp, h]
      | none => simp [List.filter_cons, hp, h]
    · have hp : ¬(clean_code p.product_code = k) := fun h => hk h.symm
      rw [if_neg hk]
      cases h : plGet m k with
      | some l => simp [List.filter_cons, hp, h]
      | none => simp [List.filter_cons, hp, h]

theorem plGet_plLookup (pl : List LineItem) (k : String) :
    plGet (plLookup pl) k =
      if pl.filter (fun p => clean_code p.product_code = k) = [] then none
      else some (pl.filter (fun p => clean_code p.product_code = k)) := by
  unfold plLookup
  rw [plLookup_go pl [] k]
  rfl

theorem calcOrderRows_eq (c : ContainerInfo) (duties : DutyTable)
    (o : SupplierOrder) :
    calcOrderRows c duties o = o.line_items.filterMap (fun it =>
      if it.quantity ≤ 0 then none
      else some (mkCostRow o duties (totalOrderUsd o) (totalPaidEur o)
        (effContainerCbm c) (effFreight c) it)) := rfl

/-- C7: a line item with quantity at most 0 never appears in the output of
the allocator: every output row has positive quantity, and the number of
rows is exactly the number of positive-quantity line items, so skipped items
are excluded entirely rather than zero-filled. -/
theorem C7_zero_quantity_exclusion (orders : List SupplierOrder)
    (c : ContainerInfo) (duties : DutyTable) :
    (∀ r ∈ calculate_landed_costs orders c duties, 0 < r.quantity) ∧
    (calculate_landed_costs orders c duties).length =
      (orders.map (fun o =>
        (o.line_items.filter (fun it => 0 < it.quantity)).length)).sum := by
  constructor
  · intro r hr
    rw [calculate_landed_costs, List.mem_flatMap] at hr
    obtain ⟨o, _, hro⟩ := hr
    rw [calcOrderRows_eq, List.mem_filterMap] at hro
    obtain ⟨it, _, hit⟩ := hro
    by_cases hq : it.quantity ≤ 0
    · rw [if_pos hq] at hit
      cases hit
    · rw [if_neg hq] at hit
      have hr2 := Option.some.inj hit
      have hquant : r.quantity = it.quantity := by
        rw [← hr2]
        rfl
      omega
  · rw [calculate_landed_costs, List.length_flatMap]
    congr 1
    refine List.map_congr_left (fun o _ => ?_)
    show (calcOrderRows c duties o).length = _
    rw [calcOrderRows_eq, length_filterMap_if]

/-- C6: every output row of the allocator satisfies
shippingCostPerUnit = containerFreightEUR * itemCBM / containerCBM / quantity,
where the container CBM denominator is the supplied total replaced by 1 when
zero or missing; under the data-model assumption that a supplied total is
non-negative, that denominator is strictly positive and the row quantity is
positive, so neither division has a zero divisor (the exact-rational model has
no NaN or infinity, and the positivity facts are what rule the float
counterparts out in the source). -/
theorem C6_shipping_formula (orders : List SupplierOrder) (c : ContainerInfo)
    (duties : DutyTable) (hc : 0 ≤ c.total_cbm.getD 0) :
    0 < effContainerCbm c ∧
    ∀ r ∈ calculate_landed_costs orders c duties,
      0 < r.quantity ∧
      r.shipping_cost_per_unit =
        effFreight c * r.cbm / effContainerCbm c / (r.quantity : ℚ) := by
  have hD : 0 < effContainerCbm c := by
    unfold effContainerCbm
    cases hcc : c.total_cbm with
    | none => norm_num
    | some v =>
      rw [hcc] at hc
      simp only [Option.getD_some] at hc
      show (0 : ℚ) < if v = 0 then 1 else v
      by_cases hv : v = 0
      · rw [if_pos hv]
        norm_num
      · rw [if_neg hv]
        exact lt_of_le_of_ne hc (Ne.symm hv)
  refine ⟨hD, ?_⟩
  intro r hr
  rw [calculate_landed_costs, List.mem_flatMap] at hr
  obtain ⟨o, _, hro⟩ := hr
  rw [calcOrderRows_eq, List.mem_filterMap] at hro
  obtain ⟨it, _, hit⟩ := hro
  by_cases hq : it.quantity ≤ 0
  · rw [if_pos hq] at hit
    cases hit
  · rw [if_neg hq] at hit
    have hr2 := Option.some.inj hit
    subst hr2
    have hqp : 0 < it.quantity := by omega
    refine ⟨hqp, ?_⟩
    show (if 0 < it.quantity then
        effFreight c * (if 0 < effContainerCbm c then it.cbm / effContainerCbm c else 0)
          / (it.quantity : ℚ)
      else 0) = effFreight c * it.cbm / effContainerCbm c / (it.quantity : ℚ)
    rw [if_pos hqp, if_pos hD, ← mul_div_assoc]

/-- C6 witness: the theorem applied to the concrete spec scenario (1000 EUR
freight over 10 CBM). -/
theorem C6_shipping_formula_witness :
    (0 : ℚ) ≤ wCont.total_cbm.getD 0 ∧
    (0 < effContainerCbm wCont ∧
      ∀ r ∈ calculate_landed_costs [wOrder] wCont ([] : DutyTable),
        0 < r.quantity ∧
        r.shipping_cost_per_unit =
          effFreight wCont * r.cbm / effContainerCbm wCont / (r.quantity : ℚ)) :=
  ⟨by decide, C6_shipping_formula [wOrder] wCont ([] : DutyTable) (by decide)⟩

/-- C5 counterexample: an order with a negative-quantity item of non-zero USD
value has positive order USD total, yet the sum over its output rows of
unrounded productCostPerUnit times quantity differs from its paid EUR total,
so conservation as claimed (assuming only orderTotalUSD positive) fails. -/
theorem C5_counterexample :
    0 < totalOrderUsd cexC5Order ∧
    ((calculate_landed_costs [cexC5Order] cexC5Cont ([] : DutyTable)).map
      (fun r => r.product_cost_per_unit * (r.quantity : ℚ))).sum ≠
        totalPaidEur cexC5Order := by
  constructor
  · norm_num [totalOrderUsd, cexC5Order]
  · norm_num [calculate_landed_costs, calcOrderRows, mkCostRow, cexC5Order, cexC5Cont,
      totalOrderUsd, totalPaidEur, paymentEurCode, effContainerCbm, effFreight,
      dutyRateOf, List.filterMap_cons]

/-- C5 amended: allocation conservation holds for an order with positive USD
total provided its line items with quantity at most 0 carry zero USD value
(in particular when all quantities are positive): the sum over the output rows
of unrounded productCostPerUnit times quantity equals the paid EUR total. -/
theorem C5_allocation_conservation (o : SupplierOrder) (c : ContainerInfo)
    (duties : DutyTable) (h0 : 0 < totalOrderUsd o)
    (hz : ∀ it ∈ o.line_items,
      it.quantity ≤ 0 → (it.quantity : ℚ) * it.unit_price_usd = 0) :
    ((calculate_landed_costs [o] c duties).map
      (fun r => r.product_cost_per_unit * (r.quantity : ℚ))).sum =
        totalPaidEur o := by
  have hTne : totalOrderUsd o ≠ 0 := ne_of_gt h0
  have hsingle : calculate_landed_costs [o] c duties = calcOrderRows c duties o := by
    simp [calculate_landed_costs]
  rw [hsingle, calcOrderRows_eq, sum_map_filterMap_if]
  have key : ∀ l : List AllocItem,
      (∀ it ∈ l, it.quantity ≤ 0 → (it.quantity : ℚ) * it.unit_price_usd = 0) →
      (l.map (fun it => if it.quantity ≤ 0 then (0 : ℚ)
          else (mkCostRow o duties (totalOrderUsd o) (totalPaidEur o)
            (effContainerCbm c) (effFreight c) it).product_cost_per_unit *
            (((mkCostRow o duties (totalOrderUsd o) (totalPaidEur o)
              (effContainerCbm c) (effFreight c) it).quantity : ℤ) : ℚ))).sum
        = totalPaidEur o / totalOrderUsd o *
            (l.map (fun it => (it.quantity : ℚ) * it.unit_price_usd)).sum := by
    intro l
    induction l with
    | nil => intro _; simp
    | cons a t ih =>
      intro hzl
      have iht := ih (fun it hm hq => hzl it (List.mem_cons_of_mem a hm) hq)
      by_cases hq : a.quantity ≤ 0
      · have h0a := hzl a (List.mem_cons_self a t) hq
        simp [hq, iht, h0a, mul_add]
      · have hqp : 0 < a.quantity := by omega
        have hqQ : ((a.quantity : ℚ)) ≠ 0 := by
          exact_mod_cast (by omega : a.quantity ≠ 0)
        have hterm : (mkCostRow o duties (totalOrderUsd o) (totalPaidEur o)
            (effContainerCbm c) (effFreight c) a).product_cost_per_unit *
              (((mkCostRow o duties (totalOrderUsd o) (totalPaidEur o)
                (effContainerCbm c) (effFreight c) a).quantity : ℤ) : ℚ)
            = totalPaidEur o / totalOrderUsd o *
                ((a.quantity : ℚ) * a.unit_price_usd) := by
          show (if 0 < a.quantity then
              totalPaidEur o * (if 0 < totalOrderUsd o then
                (a.quantity : ℚ) * a.unit_price_usd / totalOrderUsd o else 0)
                / (a.quantity : ℚ)
            else 0) * (a.quantity : ℚ) = _
          rw [if_pos hqp, if_pos h0, div_mul_cancel₀ _ hqQ]
          ring
        simp only [List.map_cons, List.sum_cons, if_neg hq, hterm, iht, mul_add]
  rw [key o.line_items hz]
  have hsum : (o.line_items.map
      (fun it => (it.quantity : ℚ) * it.unit_price_usd)).sum = totalOrderUsd o := rfl
  rw [hsum, div_mul_cancel₀ _ hTne]

/-- C5 witness for the amended conservation theorem: the spec scenario order
(500 + 500 USD, 900 EUR paid, plus a zero-quantity zero-value item) conserves
exactly. -/
theorem C5_allocation_conservation_witness :
    0 < totalOrderUsd wOrder ∧
    (∀ it ∈ wOrder.line_items,
      it.quantity ≤ 0 → (it.quantity : ℚ) * it.unit_price_usd = 0) ∧
    ((calculate_landed_costs [wOrder] wCont ([] : DutyTable)).map
      (fun r => r.product_cost_per_unit * (r.quantity : ℚ))).sum =
        totalPaidEur wOrder :=
  ⟨by norm_num [totalOrderUsd, wOrder],
   by intro it hit; fin_cases hit <;> norm_num,
   C5_allocation_conservation wOrder wCont ([] : DutyTable)
     (by norm_num [totalOrderUsd, wOrder])
     (by intro it hit; fin_cases hit <;> norm_num)⟩

/-- C4 counterexample: the allocator computes the order USD total over ALL
line items, so a negative-quantity item with non-zero value drags the total
to 0 here while the claimed positive-quantity-only sum is 10. -/
theorem C4_counterexample :
    totalOrderUsd cexC4Order = 0 ∧ specOrderTotalUsd cexC4Order = 10 ∧
    totalOrderUsd cexC4Order ≠ specOrderTotalUsd cexC4Order := by
  have h1 : totalOrderUsd cexC4Order = 0 := by norm_num [totalOrderUsd, cexC4Order]
  have h2 : specOrderTotalUsd cexC4Order = 10 := by
    norm_num [specOrderTotalUsd, cexC4Order]
  refine ⟨h1, h2, ?_⟩
  rw [h1, h2]
  norm_num

/-- C4 amended: the order USD total of the allocator sums over every line
item; it coincides with the positive-quantity-only sum of the claim exactly
when the items with quantity at most 0 contribute zero USD value (quantity 0
items always do; negative quantities with non-zero price do not). -/
theorem C4_order_total (o : SupplierOrder)
    (hz : ∀ it ∈ o.line_items,
      it.quantity ≤ 0 → (it.quantity : ℚ) * it.unit_price_usd = 0) :
    totalOrderUsd o = specOrderTotalUsd o := by
  unfold totalOrderUsd specOrderTotalUsd
  exact sum_filter_pos o.line_items hz

/-- C4 witness: the amended theorem applied to an order with two positive
items and one zero-quantity item. -/
theorem C4_order_total_witness :
    (∀ it ∈ wOrder.line_items,
      it.quantity ≤ 0 → (it.quantity : ℚ) * it.unit_price_usd = 0) ∧
    totalOrderUsd wOrder = specOrderTotalUsd wOrder :=
  ⟨by intro it hit; fin_cases hit <;> norm_num,
   C4_order_total wOrder (by intro it hit; fin_cases hit <;> norm_num)⟩

/-- C1 counterexample: a payment carrying only an EUR amount contributes 0 to
the paid total of the allocator (which reads only amount_usd and fx_rate),
while the spec conversion takes the EUR amount directly. -/
theorem C1_counterexample :
    totalPaidEur cexC1Order = 0 ∧ specOrderPaidEur cexC1Order = 100 ∧
    totalPaidEur cexC1Order ≠ specOrderPaidEur cexC1Order := by
  have h1 : totalPaidEur cexC1Order = 0 := by
    norm_num [totalPaidEur, paymentEurCode, cexC1Order]
  have h2 : specOrderPaidEur cexC1Order = 100 := by
    norm_num [specOrderPaidEur, specPaymentEur, cexC1Order]
  refine ⟨h1, h2, ?_⟩
  rw [h1, h2]
  norm_num

/-- C1 amended: for orders whose present payments are USD-denominated (no EUR
amount), the paid total of the allocator equals the spec conversion, each
payment contributing amountUSD times fxRate (defaults 0 and 1 for missing
keys). -/
theorem C1_paid_total (o : SupplierOrder)
    (h1 : ∀ p, o.payment_1 = some p → p.amount_eur = none)
    (h2 : ∀ p, o.payment_2 = some p → p.amount_eur = none) :
    totalPaidEur o = specOrderPaidEur o := by
  have e1 : ∀ p, o.payment_1 = some p → specPaymentEur p = paymentEurCode p := by
    intro p hp
    unfold specPaymentEur paymentEurCode
    rw [h1 p hp]
  have e2 : ∀ p, o.payment_2 = some p → specPaymentEur p = paymentEurCode p := by
    intro p hp
    unfold specPaymentEur paymentEurCode
    rw [h2 p hp]
  unfold totalPaidEur specOrderPaidEur
  cases hp : o.payment_1 with
  | none =>
    cases hq : o.payment_2 with
    | none => rfl
    | some q =>
      dsimp only
      rw [e2 q hq]
  | some p =>
    cases hq : o.payment_2 with
    | none =>
      dsimp only
      rw [e1 p hp]
    | some q =>
      dsimp only
      rw [e1 p hp, e2 q hq]

/-- C1 witness: the amended theorem applied to an order with two USD
payments. -/
theorem C1_paid_total_witness :
    (∀ p, wC1Order.payment_1 = some p → p.amount_eur = none) ∧
    (∀ p, wC1Order.payment_2 = some p → p.amount_eur = none) ∧
    totalPaidEur wC1Order = specOrderPaidEur wC1Order :=
  ⟨fun p hp => by cases Option.some.inj hp; rfl,
   fun p hp => by cases Option.some.inj hp; rfl,
   C1_paid_total wC1Order (fun p hp => by cases Option.some.inj hp; rfl)
     (fun p hp => by cases Option.some.inj hp; rfl)⟩

/-- C10: match with a missing search text or an empty (falsy) search text
returns none immediately, before any strategy or index is consulted, and
raises nothing. -/
theorem C10_empty_search (mb : List CatalogRow) (hint : Option String) :
    matchProduct mb none hint = none ∧ matchProduct mb (some "") hint = none :=
  ⟨rfl, rfl⟩

/-- C3 divergence evaluation: the search text VS0811 contains no alias of the
mapping table (its expansion is just itself), its normalized form
exact-matches the internal-code index and nothing else, and it is not a
13-digit string; yet match returns the row through the expanded-terms loop
with confidence 0.9 and method mapped_internal_code, not with the documented
0.95 exact_internal_code, because the expansion list starts with the raw
search text, making the exact-internal-code strategy unreachable. -/
theorem C3_internal_code_hijack :
    expand_search_text "VS0811" = ["VS0811"] ∧
    dictGet (intIndex mbC3) (normalizeText "VS0811") = some 0 ∧
    dictGet (extIndex mbC3) (normalizeText "VS0811") = none ∧
    pyIsDigit "VS0811" = false ∧
    matchProduct mbC3 (some "VS0811") none =
      some (getResult mbC3 0 (9 / 10) "mapped_internal_code") ∧
    (getResult mbC3 0 (9 / 10) "mapped_internal_code").confidence = 9 / 10 ∧
    (getResult mbC3 0 (9 / 10) "mapped_internal_code").match_method =
      "mapped_internal_code" ∧
    (9 : ℚ) / 10 ≠ 19 / 20 := by
  refine ⟨rfl, rfl, rfl, rfl, rfl, rfl, rfl, by norm_num⟩

/-- C8 counterexample: a catalog whose row has the searched 13-digit string
as EAN, as internal code and inside its external code; the search satisfies
every premise of the claim (13 digits, present in the EAN index, substring of
an indexed external code), yet match returns confidence 0.9 via
mapped_internal_code instead of the claimed EAN result with confidence 1.0. -/
theorem C8_counterexample :
    pyIsDigit "1234567890123" = true ∧
    ("1234567890123" : String).length = 13 ∧
    dictGet (eanIndex mbC8) "1234567890123" = some 0 ∧
    strContains (normalizeText (mbC8.getD 0 dfltCatalogRow).external_code)
      "1234567890123" = true ∧
    matchProduct mbC8 (some "1234567890123") none =
      some (getResult mbC8 0 (9 / 10) "mapped_internal_code") ∧
    (getResult mbC8 0 (9 / 10) "mapped_internal_code").confidence ≠ 1 := by
  refine ⟨rfl, rfl, rfl, rfl, rfl, ?_⟩
  show (9 : ℚ) / 10 ≠ 1
  norm_num

/-- C8 amended: exact-EAN precedence holds whenever the all-digit 13-character
search text does not also hit the internal-code index (the expanded-terms
loop): then match returns the EAN row with confidence 1.0 via exact_ean,
regardless of the supplier hint and of any partial external-code overlap. -/
theorem C8_ean_precedence (mb : List CatalogRow) (hint : Option String)
    (s : String) (i : Nat)
    (hd : ∀ c ∈ s.data, c.isDigit = true) (hlen : s.length = 13)
    (hean : dictGet (eanIndex mb) s = some i)
    (hintIdx : dictGet (intIndex mb) (normalizeText s) = none) :
    matchProduct mb (some s) hint = some (getResult mb i 1 "exact_ean") := by
  have hne : s ≠ "" := by
    intro h
    rw [h] at hlen
    exact absurd hlen (by decide)
  have hstrip : pyStrip s = s := pyStrip_digits s hd
  have hdig : pyIsDigit s = true := by
    unfold pyIsDigit
    rw [Bool.and_eq_true]
    exact ⟨decide_eq_true hne, List.all_eq_true.mpr hd⟩
  simp only [matchProduct]
  rw [if_neg hne, hstrip, expand_digits s hd]
  simp only [List.findSome?, hintIdx]
  rw [if_pos ⟨hdig, hlen⟩, hean]

/-- C8 witness: the amended precedence theorem applied to the one-row catalog
and its 13-digit EAN. -/
theorem C8_ean_precedence_witness :
    (∀ c ∈ ("8719326123456" : String).data, c.isDigit = true) ∧
    ("8719326123456" : String).length = 13 ∧
    dictGet (eanIndex mbC3) "8719326123456" = some 0 ∧
    dictGet (intIndex mbC3) (normalizeText "8719326123456") = none ∧
    matchProduct mbC3 (some "8719326123456") none =
      some (getResult mbC3 0 1 "exact_ean") :=
  ⟨by decide, rfl, rfl, rfl,
    C8_ean_precedence mbC3 none "8719326123456" 0 (by decide) rfl rfl rfl⟩

/-- C2 divergence evaluation: a row carrying a recognizable product code
whose only positive parseable number is non-integral (3.5) makes
GenericParser.parse raise ValueError (max over an empty candidate sequence)
instead of skipping the row silently as the claim and the error-handling
policy of the spec require. -/
theorem C2_generic_parser_crash :
    findProductCode (rowText crashRow) = some "TP-ABC" ∧
    (clean_number (Cell.str "3.5")).isSome = true ∧
    ((clean_number (Cell.str "3.5")).getD 0).den = 2 ∧
    genericParse [crashRow] =
      Except.error "ValueError: max() arg is an empty sequence" :=
  ⟨rfl, rfl, rfl, rfl⟩

/-- C9: merging CI items against PL items yields exactly one output item per
CI item, preserving every field except CBM; the CBM of each output item is
the sum of the CBM of all PL items whose cleaned code equals its own cleaned
code (0 when there is none, since CI items carry CBM 0); in particular
merging against an empty PL sequence leaves every CBM at 0. -/
theorem C9_merge_postcondition (ci pl : List LineItem)
    (hz : ∀ it ∈ ci, it.cbm = 0) :
    (merge_ci_pl ci pl).length = ci.length ∧
    (∀ i c, ci.get? i = some c →
      (merge_ci_pl ci pl).get? i =
        some { c with cbm := ((pl.filter (fun p =>
            clean_code p.product_code = clean_code c.product_code)).map
              (fun p : LineItem => p.cbm)).sum }) ∧
    (pl = [] → ∀ r ∈ merge_ci_pl ci pl, r.cbm = 0) := by
  have key : ∀ c : LineItem, c.cbm = 0 →
      (match plGet (plLookup pl) (clean_code c.product_code) with
        | some ms => { c with cbm := (ms.map (fun p : LineItem => p.cbm)).sum }
        | none => c)
      = { c with cbm := ((pl.filter (fun p =>
            clean_code p.product_code = clean_code c.product_code)).map
              (fun p : LineItem => p.cbm)).sum } := by
    intro c hc
    rw [plGet_plLookup]
    by_cases hf : pl.filter (fun p =>
        clean_code p.product_code = clean_code c.product_code) = []
    · rw [if_pos hf, hf]
      cases c
      simp_all
    · rw [if_neg hf]
  refine ⟨?_, ?_, ?_⟩
  · simp [merge_ci_pl]
  · intro i c hci
    unfold merge_ci_pl
    rw [List.get?_map, hci, Option.map_some']
    rw [key c (hz c (List.get?_mem hci))]
  · intro hpl r hr
    subst hpl
    have hid : merge_ci_pl ci [] = ci := by
      unfold merge_ci_pl plLookup
      simp [plGet]
    rw [hid] at hr
    exact hz r hr

/-- C9 witness: the merge postcondition applied to two CI items and three PL
items, two of which normalize onto the first CI code. -/
theorem C9_merge_postcondition_witness :
    (∀ it ∈ wCI, it.cbm = 0) ∧
    ((merge_ci_pl wCI wPL).length = wCI.length ∧
      (∀ i c, wCI.get? i = some c →
        (merge_ci_pl wCI wPL).get? i =
          some { c with cbm := ((wPL.filter (fun p =>
              clean_code p.product_code = clean_code c.product_code)).map
                (fun p : LineItem => p.cbm)).sum }) ∧
      (wPL = [] → ∀ r ∈ merge_ci_pl wCI wPL, r.cbm = 0)) :=
  ⟨by decide, C9_merge_postcondition wCI wPL (by decide)⟩
